import Mathlib

/-!
# Verification of pi-screenshots-picker (src/index.ts)

A shallow embedding of the screenshot discovery, staging and picker logic of
`src/index.ts`, together with theorems settling the frozen claims about it.

Modelling conventions:
* File-system effects are passed explicitly: `readdirSync` results arrive as
  `Option (List String)` (a missing directory is `none`), `statSync` is a
  function `String → Option Stats` (a throwing stat is `none`), `readFileSync`
  is `String → Option String`, and `unlinkSync` success is `String → Bool`.
* JavaScript numbers used for timestamps and for cursor/scroll arithmetic are
  modelled as `Int` (the code only adds, subtracts and compares them).
* JavaScript `toLowerCase` is modelled as ASCII lowercasing (`Char.toLower`);
  every pattern the code matches against is ASCII, so the two agree on all
  inputs the patterns can accept.
* Staged images carry a ghost `origin` field recording the source path the
  image was loaded from; the running code does not store it, but the claims
  about "entries originating from the same source path" need it to be stated.
-/

namespace ScreenshotsPicker

/-- Lowercased character list of a string: model of JS `toLowerCase()`
restricted to ASCII (all patterns matched against are ASCII). -/
def lowerStr (s : String) : List Char :=
  s.toList.map Char.toLower

/-- ECMAScript `\s` character class (the whitespace characters `/\s/` matches). -/
def jsWhitespace (c : Char) : Bool :=
  c.toNat = 0x09 || c.toNat = 0x0a || c.toNat = 0x0b || c.toNat = 0x0c ||
  c.toNat = 0x0d || c.toNat = 0x20 || c.toNat = 0xa0 || c.toNat = 0x1680 ||
  (0x2000 ≤ c.toNat && c.toNat ≤ 0x200a) || c.toNat = 0x2028 ||
  c.toNat = 0x2029 || c.toNat = 0x202f || c.toNat = 0x205f ||
  c.toNat = 0x3000 || c.toNat = 0xfeff

/-- `/^word\s/i` on an already-lowercased character list: the lowercased word,
then one JS whitespace character. -/
def prefixThenWs (word : List Char) (l : List Char) : Bool :=
  word.isPrefixOf l &&
    (match l.drop word.length with
     | c :: _ => jsWhitespace c
     | [] => false)

/-- JS `\d`. -/
def isDig (c : Char) : Bool :=
  '0' ≤ c && c ≤ '9'

/-- The `[_-]` class of the GNOME pattern. -/
def isSep (c : Char) : Bool :=
  c = '_' || c = '-'

/-- Character test at a position; out of range is a failed match. -/
def charIs (l : List Char) (i : Nat) (p : Char → Bool) : Bool :=
  match l.get? i with
  | some c => p c
  | none => false

/-- `/^\d{4}-\d{2}-\d{2}[_-]\d{2}[_-]\d{2}/i` (GNOME screenshot names). -/
def gnomeDatePattern (l : List Char) : Bool :=
  charIs l 0 isDig && charIs l 1 isDig && charIs l 2 isDig && charIs l 3 isDig &&
  charIs l 4 (fun c => c = '-') && charIs l 5 isDig && charIs l 6 isDig &&
  charIs l 7 (fun c => c = '-') && charIs l 8 isDig && charIs l 9 isDig &&
  charIs l 10 isSep && charIs l 11 isDig && charIs l 12 isDig &&
  charIs l 13 isSep && charIs l 14 isDig && charIs l 15 isDig

/-- `isScreenshotName` / `SCREENSHOT_PATTERNS`: some fixed pattern matches.
The `i` flag is modelled by lowercasing the name and matching lowercase
literals; every anchored literal below mirrors one regex of the source table. -/
def isScreenshotName (name : String) : Bool :=
  let l := lowerStr name
  prefixThenWs "screenshot".toList l ||       -- /^Screenshot\s/i
  prefixThenWs "capture".toList l ||          -- /^Capture\s/i
  "scherm".toList.isPrefixOf l ||             -- /^Scherm/i
  "bildschirmfoto".toList.isPrefixOf l ||     -- /^Bildschirmfoto/i
  prefixThenWs "captura".toList l ||          -- /^Captura\s/i
  "istantanea".toList.isPrefixOf l ||         -- /^Istantanea/i
  "screenshot".toList.isPrefixOf l ||         -- /^screenshot/i
  gnomeDatePattern l ||                       -- GNOME date pattern
  "flameshot".toList.isPrefixOf l ||          -- /^flameshot/i
  "spectacle".toList.isPrefixOf l ||          -- /^spectacle/i
  "scrot".toList.isPrefixOf l ||              -- /^scrot/i
  "maim".toList.isPrefixOf l ||               -- /^maim/i
  "grim".toList.isPrefixOf l                  -- /^grim/i

/-- `name.toLowerCase().endsWith(".png")`. -/
def pngCI (name : String) : Bool :=
  ".png".toList.isSuffixOf (lowerStr name)

/-- The glob-scan extension filter:
`.png`, `.jpg`, `.jpeg` or `.webp`, checked case-insensitively on the path. -/
def imageExtCI (path : String) : Bool :=
  ".png".toList.isSuffixOf (lowerStr path) ||
  ".jpg".toList.isSuffixOf (lowerStr path) ||
  ".jpeg".toList.isSuffixOf (lowerStr path) ||
  ".webp".toList.isSuffixOf (lowerStr path)

/-- Result of `statSync`: the two fields the code reads. -/
structure Stats where
  mtime : Int
  size : Nat
  deriving Repr, DecidableEq

/-- `ScreenshotInfo` of the source. -/
structure ScreenshotInfo where
  path : String
  name : String
  mtime : Int
  size : Nat
  deriving Repr, DecidableEq

/-- `join(directory, name)` for an absolute directory and a bare entry name. -/
def joinPath (dir name : String) : String :=
  dir ++ "/" ++ name

/-- The name filter of `getScreenshotsFromDirectory`:
PNG extension (case-insensitive) and a screenshot-looking name. -/
def dirNameFilter (name : String) : Bool :=
  pngCI name && isScreenshotName name

/-- The record construction of `getScreenshotsFromDirectory` over a listed
entry set: keep the names passing the filter, stat each joined path, and drop
the entries whose stat throws (they map to `null` and are filtered out). -/
def dirScanRecords (directory : String) (files : List String)
    (stat : String → Option Stats) : List ScreenshotInfo :=
  (files.filter dirNameFilter).filterMap (fun name =>
    let path := joinPath directory name
    match stat path with
    | some st => some { path := path, name := name, mtime := st.mtime, size := st.size }
    | none => none)

/-- `getScreenshotsFromDirectory`: `dirExists` is the `existsSync` guard and
`entries` the `readdirSync` outcome — `none` when listing throws (an existing
but unlistable source: a plain file gives ENOTDIR, a permission-denied
directory EACCES). `readdirSync` is not wrapped in a try/catch in the source,
so that exception propagates to the caller: the function returns
`Option (List ScreenshotInfo)`, `none` being the escaped exception. A missing
directory short-circuits to `some []` before `readdirSync` runs; `stat` is
the per-path `statSync` outcome with its own per-entry try/catch. -/
def getScreenshotsFromDirectory (directory : String) (dirExists : Bool)
    (entries : Option (List String)) (stat : String → Option Stats) :
    Option (List ScreenshotInfo) :=
  if !dirExists then some []
  else
    match entries with
    | none => none
    | some files => some (dirScanRecords directory files stat)

/-- `getScreenshotsFromGlob`: `globResult` is the `globSync` outcome (`none`
when the glob throws), `resolvePath` and `basenameOf` stand for the
`node:path` calls `resolve`/`basename` (environment-dependent string mapping).
Entries whose stat throws are filtered out. -/
def getScreenshotsFromGlob (resolvePath basenameOf : String → String)
    (globResult : Option (List String)) (stat : String → Option Stats) : List ScreenshotInfo :=
  match globResult with
  | none => []
  | some files =>
    (files.filter imageExtCI).filterMap (fun path =>
      match stat path with
      | some st =>
        some { path := resolvePath path, name := basenameOf path,
               mtime := st.mtime, size := st.size }
      | none => none)

/-- `expandPath`: a leading `~/` is replaced by the home directory
(`join(homedir(), path.slice(2))`). -/
def expandPath (home : String) (p : String) : String :=
  if "~/".toList.isPrefixOf p.toList then home ++ "/" ++ p.drop 2 else p

/-- `process.env.PI_SCREENSHOTS_DIR || getDefaultScreenshotDir()`:
an unset or empty environment variable falls through to the default. -/
def fallbackDir (envDir : Option String) (defaultDir : String) : String :=
  match envDir with
  | some e => if e = "" then defaultDir else e
  | none => defaultDir

/-- The source-list construction of `getSourceTabs`:
configured sources when non-empty, else the env/default fallback, then the
`sshSync.remoteDir` appended unless falsy or already present in raw or
tilde-expanded form. -/
def resolveSources (cfgSources : Option (List String)) (envDir : Option String)
    (defaultDir : String) (sshRemoteDir : Option String) (home : String) : List String :=
  let base :=
    match cfgSources with
    | some l => if 0 < l.length then l else [fallbackDir envDir defaultDir]
    | none => [fallbackDir envDir defaultDir]
  match sshRemoteDir with
  | some rd =>
    if rd = "" then base
    else
      let syncDir := expandPath home rd
      if syncDir ∈ base ∨ rd ∈ base then base else base ++ [rd]
  | none => base

/-- `SourceTab` of the source. -/
structure Tab where
  label : String
  pattern : String
  screenshots : List ScreenshotInfo
  deriving Repr, DecidableEq

/-- The sort of `getSourceTabs`: `screenshots.sort((a, b) => b.mtime - a.mtime)`
(most recent first). `Array.prototype.sort` is a stable sort, and a stable
sort with respect to a total preorder has a unique result, so the stable
`insertionSort` models it exactly. -/
def sortScreenshots (l : List ScreenshotInfo) : List ScreenshotInfo :=
  l.insertionSort (fun a b => b.mtime ≤ a.mtime)

/-- `getSourceTabs`, with the per-source scan and the display-label maker
(`createSourceLabel`, pure display string munging over `node:path`) passed as
environment. -/
def getSourceTabs (scan : String → List ScreenshotInfo) (mkLabel : String → String)
    (sources : List String) : List Tab :=
  sources.map (fun source =>
    { label := mkLabel source, pattern := source,
      screenshots := sortScreenshots (scan source) })

/-- `ImageContent` as staged: mime type and base64 data, plus a ghost `origin`
field recording the path the image was loaded from (needed to state the
path-based claims; the running code does not store it). -/
structure StagedImage where
  origin : String
  mimeType : String
  data : String
  deriving Repr, DecidableEq

/-- Mime type inference of `loadImageBase64` (from the lowercased path). -/
def mimeFromPath (path : String) : String :=
  if ".jpg".toList.isSuffixOf (lowerStr path) || ".jpeg".toList.isSuffixOf (lowerStr path) then
    "image/jpeg"
  else if ".webp".toList.isSuffixOf (lowerStr path) then
    "image/webp"
  else
    "image/png"

/-- `loadImageBase64`: `readFileSync` outcome passed as `fs`; a throwing read
is `none`. -/
def loadImageBase64 (fs : String → Option String) (path : String) : Option StagedImage :=
  (fs path).map (fun d => { origin := path, mimeType := mimeFromPath path, data := d })

/-- `[...alreadyStaged].indexOf(path)`: index of the first occurrence, or the
length when absent (the source checks `!== -1`, i.e. membership, separately). -/
def pathIndexOf (p : String) : List String → Nat
  | [] => 0
  | q :: rest => if q = p then 0 else pathIndexOf p rest + 1

/-- `alreadyStaged.delete(path)`: remove the (first) occurrence, keeping the
insertion order of the rest. -/
def removePath (p : String) : List String → List String
  | [] => []
  | q :: rest => if q = p then rest else q :: removePath p rest

/-- The unstage block the source repeats in `toggleStageScreenshot`, the
delete branch and the nuke branch: when the path is staged, splice
`stagedImages` at the path's index in the staged-path set and delete the path
from the set. -/
def unstageIfStaged (p : String) (aS : List String) (si : List StagedImage) :
    List String × List StagedImage :=
  if p ∈ aS then (removePath p aS, si.eraseIdx (pathIndexOf p aS)) else (aS, si)

/-- `toggleStageScreenshot`: unstage when the path is in `alreadyStaged`,
otherwise load the file and append to both `stagedImages` and
`alreadyStaged`; a failing read silently changes nothing. -/
def toggleStageScreenshot (fs : String → Option String) (p : String)
    (aS : List String) (si : List StagedImage) : List String × List StagedImage :=
  if p ∈ aS then
    (removePath p aS, si.eraseIdx (pathIndexOf p aS))
  else
    match loadImageBase64 fs p with
    | some img => (aS ++ [p], si ++ [img])
    | none => (aS, si)

/-- The keys the picker's `handleInput` dispatches on. -/
inductive PickerKey
  | up
  | down
  | stage
  | enter
  | escape
  | openViewer
  | deleteKey
  | ctrlT
  | nuke
  | other
  deriving Repr, DecidableEq

/-- The picker's interactive state: the UI variables of the custom-UI closure
plus the session's `alreadyStaged` set and the module-level `stagedImages`
store it mutates. `cursor` and `scrollOffset` are JS numbers (`Int`). -/
structure UIState where
  tabs : List Tab
  activeTab : Nat
  cursor : Int
  scrollOffset : Int
  nukeWarning : Bool
  alreadyStaged : List String
  stagedImages : List StagedImage
  deriving Repr

/-- `done(...)` payload: `done(null)` is `none`, `done([])` is `some []`. -/
abbrev DoneResult := Option (List String)

/-- `tabs[activeTab]?.screenshots || []`. -/
def getCurrentScreenshots (st : UIState) : List ScreenshotInfo :=
  match st.tabs.get? st.activeTab with
  | some t => t.screenshots
  | none => []

/-- JS indexing with a possibly negative index: `arr[i]` is `undefined`
outside `[0, length)`. -/
def getAtInt {α : Type} (l : List α) (i : Int) : Option α :=
  if 0 ≤ i then l.get? i.toNat else none

/-- Replace the screenshots array of tab `i`. -/
def setTabScreenshots (tabs : List Tab) (i : Nat) (scr : List ScreenshotInfo) : List Tab :=
  match tabs.get? i with
  | some t => tabs.set i { t with screenshots := scr }
  | none => tabs

/-- `tabs.findIndex((t, i) => i !== activeTab && t.screenshots.length > 0)`,
counting from `i`. -/
def findNonEmptyTabAux (tabs : List Tab) (skip i : Nat) : Option Nat :=
  match tabs with
  | [] => none
  | t :: rest =>
    if i ≠ skip ∧ t.screenshots ≠ [] then some i else findNonEmptyTabAux rest skip (i + 1)

/-- First tab index other than `skip` whose screenshots list is non-empty. -/
def findNonEmptyTabIdx (tabs : List Tab) (skip : Nat) : Option Nat :=
  findNonEmptyTabAux tabs skip 0

/-- `VISIBLE_ITEMS` of the source. -/
def VISIBLE_ITEMS : Int := 10

/-- The `d` branch of `handleInput`: unlink the record under the cursor
(silently do nothing when the list is empty, the cursor misses, or the unlink
throws), unstage it if staged, splice it out of the tab, then either close,
switch tab, or clamp cursor and scroll. -/
def deleteCurrent (unlinkOk : String → Bool) (st : UIState) : UIState × Option DoneResult :=
  let screenshots := getCurrentScreenshots st
  if screenshots.length = 0 then (st, none)
  else
    match getAtInt screenshots st.cursor with
    | none => (st, none)
    | some sc =>
      if unlinkOk sc.path then
        let staging := unstageIfStaged sc.path st.alreadyStaged st.stagedImages
        let idx := screenshots.findIdx (fun s => s.path = sc.path)
        let tabScreenshots :=
          if idx < screenshots.length then screenshots.eraseIdx idx else screenshots
        let tabs' := setTabScreenshots st.tabs st.activeTab tabScreenshots
        if tabScreenshots.length = 0 then
          match findNonEmptyTabIdx tabs' st.activeTab with
          | some k =>
            ({ st with tabs := tabs', activeTab := k, cursor := 0, scrollOffset := 0,
                       alreadyStaged := staging.1, stagedImages := staging.2 }, none)
          | none =>
            ({ st with tabs := tabs', alreadyStaged := staging.1,
                       stagedImages := staging.2 }, some none)
        else
          let len : Int := tabScreenshots.length
          let cursor' : Int := if len ≤ st.cursor then len - 1 else st.cursor
          let scroll' : Int :=
            if 0 < st.scrollOffset ∧ len - VISIBLE_ITEMS + 1 ≤ st.scrollOffset then
              max 0 (len - VISIBLE_ITEMS)
            else st.scrollOffset
          ({ st with tabs := tabs', cursor := cursor', scrollOffset := scroll',
                     alreadyStaged := staging.1, stagedImages := staging.2 }, none)
      else (st, none)

/-- The confirmed-nuke branch: best-effort unlink of every record of the
active tab (unstaging the staged ones whose unlink succeeded), clear the tab,
then switch to another non-empty tab or close. -/
def nukeCurrentTab (unlinkOk : String → Bool) (st : UIState) : UIState × Option DoneResult :=
  let tabScreenshots := getCurrentScreenshots st
  let staging := tabScreenshots.foldl
    (fun (acc : List String × List StagedImage) sc =>
      if unlinkOk sc.path then unstageIfStaged sc.path acc.1 acc.2 else acc)
    (st.alreadyStaged, st.stagedImages)
  let tabs' := setTabScreenshots st.tabs st.activeTab []
  match findNonEmptyTabIdx tabs' st.activeTab with
  | some k =>
    ({ st with tabs := tabs', activeTab := k, cursor := 0, scrollOffset := 0,
               nukeWarning := false, alreadyStaged := staging.1,
               stagedImages := staging.2 }, none)
  | none =>
    ({ st with tabs := tabs', alreadyStaged := staging.1,
               stagedImages := staging.2 }, some none)

/-- The picker's `handleInput` dispatch. `fs` is the `readFileSync` outcome at
this instant, `unlinkOk` the `unlinkSync` outcome. The second component is
the `done` payload when the handler terminates the picker. -/
def handleInput (fs : String → Option String) (unlinkOk : String → Bool)
    (key : PickerKey) (st : UIState) : UIState × Option DoneResult :=
  if st.nukeWarning then
    match key with
    | .nuke => nukeCurrentTab unlinkOk st
    | _ => ({ st with nukeWarning := false }, none)
  else
    match key with
    | .ctrlT =>
      if 1 < st.tabs.length then
        ({ st with activeTab := (st.activeTab + 1) % st.tabs.length,
                   cursor := 0, scrollOffset := 0 }, none)
      else (st, none)
    | .nuke => ({ st with nukeWarning := true }, none)
    | .up =>
      let cursor' := max 0 (st.cursor - 1)
      let scroll' := if cursor' < st.scrollOffset then cursor' else st.scrollOffset
      ({ st with cursor := cursor', scrollOffset := scroll' }, none)
    | .down =>
      let screenshots := getCurrentScreenshots st
      let cursor' := min ((screenshots.length : Int) - 1) (st.cursor + 1)
      let scroll' :=
        if st.scrollOffset + VISIBLE_ITEMS ≤ cursor' then cursor' - VISIBLE_ITEMS + 1
        else st.scrollOffset
      ({ st with cursor := cursor', scrollOffset := scroll' }, none)
    | .stage =>
      let screenshots := getCurrentScreenshots st
      match getAtInt screenshots st.cursor with
      | some sc =>
        let staging := toggleStageScreenshot fs sc.path st.alreadyStaged st.stagedImages
        ({ st with alreadyStaged := staging.1, stagedImages := staging.2 }, none)
      | none => (st, none)
    | .enter => (st, some (some []))
    | .escape => (st, some none)
    | .openViewer => (st, none)
    | .deleteKey => deleteCurrent unlinkOk st
    | .other => (st, none)

/-- One key event of a picker session, together with the file-system outcomes
in effect when it is processed. -/
structure SessionStep where
  fs : String → Option String
  unlinkOk : String → Bool
  key : PickerKey

/-- The fresh UI state `showScreenshotSelector` builds for a session:
`activeTab`, `cursor` and `scrollOffset` start at 0, `alreadyStaged` is a new
empty set, and the module-level `stagedImages` carries over. -/
def initUI (tabs : List Tab) (si : List StagedImage) : UIState :=
  { tabs := tabs, activeTab := 0, cursor := 0, scrollOffset := 0,
    nukeWarning := false, alreadyStaged := [], stagedImages := si }

/-- Process one key event of the custom-UI loop; once a `done` payload has
been produced the loop has ended and later events are not delivered. -/
def stepSession (acc : UIState × Option DoneResult) (s : SessionStep) :
    UIState × Option DoneResult :=
  match acc.2 with
  | some _ => acc
  | none => handleInput s.fs s.unlinkOk s.key acc.1

/-- Run one picker session: filter out empty tabs as
`showScreenshotSelector` does, then fold the key events. -/
def runPickerSession (tabs : List Tab) (si : List StagedImage)
    (steps : List SessionStep) : UIState × Option DoneResult :=
  steps.foldl stepSession (initUI (tabs.filter (fun t => !t.screenshots.isEmpty)) si, none)

/-- The user's pending outgoing message as the `input` hook sees it
(`event.images` may be absent). -/
structure InputEvent where
  text : String
  images : Option (List StagedImage)

/-- The hook's return value: `{ action: "continue" }` or
`{ action: "transform", text, images }`. -/
inductive InputAction
  | continueUnchanged
  | transform (text : String) (images : List StagedImage)
  deriving Repr

/-- The `pi.on("input")` handler: pass the message through when nothing is
staged; otherwise append the staged images after the message's own images and
clear the store. Returns the action and the store's new contents. -/
def onInputHook (stagedImages : List StagedImage) (ev : InputEvent) :
    InputAction × List StagedImage :=
  if stagedImages.length = 0 then
    (.continueUnchanged, stagedImages)
  else
    (.transform ev.text ((ev.images.getD []) ++ stagedImages), [])

/-- The operations that touch the module-level staging store over its
lifetime: a picker session (`/ss` with its key events), the send-hook drain,
and `/ssclear`. -/
inductive StoreOp
  | openPicker (tabs : List Tab) (steps : List SessionStep)
  | drainMsg (ev : InputEvent)
  | clearStaged

/-- Effect of one store operation on the staged-image sequence.
`showScreenshotSelector` returns without opening the UI when every tab is
empty; `/ssclear` assigns a fresh empty array. -/
def applyOp (si : List StagedImage) : StoreOp → List StagedImage
  | .openPicker tabs steps =>
    if (tabs.filter (fun t => !t.screenshots.isEmpty)).isEmpty then si
    else ((runPickerSession tabs si steps).1).stagedImages
  | .drainMsg ev => (onInputHook si ev).2
  | .clearStaged => []

/-- The staging store after a sequence of operations, from the module's
initial empty array. -/
def runOps (ops : List StoreOp) : List StagedImage :=
  ops.foldl applyOp []

/-! ## Shared fixtures for concrete witnesses and counterexamples -/

/-- A record as the scanner would produce it for `/d/a.png`. -/
def scW : ScreenshotInfo :=
  { path := "/d/a.png", name := "a.png", mtime := 0, size := 1 }

/-- A record as the scanner would produce it for `/e/b.png`, more recent. -/
def scV : ScreenshotInfo :=
  { path := "/e/b.png", name := "b.png", mtime := 3, size := 2 }

/-- A one-record tab over `/d`. -/
def tabW : Tab :=
  { label := "d", pattern := "/d", screenshots := [scW] }

/-- A one-record tab over `/e`. -/
def tabV : Tab :=
  { label := "e", pattern := "/e", screenshots := [scV] }

/-- A file system on which only `/d/a.png` is readable. -/
def fsW : String → Option String :=
  fun p => if p = "/d/a.png" then some "DATA" else none

/-- The staged image `fsW` staging of `/d/a.png` produces. -/
def imgW : StagedImage :=
  { origin := "/d/a.png", mimeType := "image/png", data := "DATA" }

/-- A key event staging the record under the cursor, with `fsW` in effect. -/
def stepStageW : SessionStep :=
  { fs := fsW, unlinkOk := fun _ => false, key := .stage }

/-! ## Lemmas about the staged-path set operations -/

/-- `pathIndexOf` of an absent path is the length. -/
theorem pathIndexOf_of_not_mem {p : String} {l : List String} (h : p ∉ l) :
    pathIndexOf p l = l.length := by
  induction l with
  | nil => rfl
  | cons q rest ih =>
    simp only [List.mem_cons, not_or] at h
    simp only [pathIndexOf, List.length_cons]
    rw [if_neg (fun hq => h.1 hq.symm), ih h.2]

/-- `pathIndexOf` of a present path is below the length. -/
theorem pathIndexOf_lt_length {p : String} {l : List String} (h : p ∈ l) :
    pathIndexOf p l < l.length := by
  induction l with
  | nil => cases h
  | cons q rest ih =>
    simp only [pathIndexOf, List.length_cons]
    by_cases hq : q = p
    · rw [if_pos hq]; omega
    · rw [if_neg hq]
      have : p ∈ rest := by
        rcases List.mem_cons.mp h with h1 | h1
        · exact absurd h1.symm hq
        · exact h1
      have := ih this
      omega

/-- Removing an absent path changes nothing. -/
theorem removePath_of_not_mem {p : String} {l : List String} (h : p ∉ l) :
    removePath p l = l := by
  induction l with
  | nil => rfl
  | cons q rest ih =>
    simp only [List.mem_cons, not_or] at h
    simp only [removePath]
    rw [if_neg (fun hq => h.1 hq.symm), ih h.2]

/-- Removing a freshly appended path recovers the original list. -/
theorem removePath_append_self {p : String} {l : List String} (h : p ∉ l) :
    removePath p (l ++ [p]) = l := by
  induction l with
  | nil => simp [removePath]
  | cons q rest ih =>
    simp only [List.mem_cons, not_or] at h
    simp only [List.cons_append, removePath]
    rw [if_neg (fun hq => h.1 hq.symm)]
    simp only [List.append_eq]
    rw [ih h.2]

/-- `removePath` yields a sublist. -/
theorem removePath_sublist (p : String) (l : List String) :
    (removePath p l).Sublist l := by
  induction l with
  | nil => exact List.Sublist.refl _
  | cons q rest ih =>
    simp only [removePath]
    by_cases hq : q = p
    · rw [if_pos hq]; exact List.sublist_cons_self q rest
    · rw [if_neg hq]; exact ih.cons₂ q

/-- `removePath` preserves duplicate-freedom. -/
theorem nodup_removePath {p : String} {l : List String} (h : l.Nodup) :
    (removePath p l).Nodup :=
  h.sublist (removePath_sublist p l)

/-- On a duplicate-free list, the removed path is gone. -/
theorem not_mem_removePath {p : String} {l : List String} (h : l.Nodup) :
    p ∉ removePath p l := by
  induction l with
  | nil => simp [removePath]
  | cons q rest ih =>
    simp only [List.nodup_cons] at h
    simp only [removePath]
    by_cases hq : q = p
    · rw [if_pos hq]; rw [hq] at h; exact h.1
    · rw [if_neg hq]
      intro hmem
      rcases List.mem_cons.mp hmem with h1 | h1
      · exact hq h1.symm
      · exact ih h.2 h1

/-- Paths other than the removed one survive `removePath`. -/
theorem mem_removePath_of_ne {p q : String} {l : List String} (hq : q ∈ l) (hne : q ≠ p) :
    q ∈ removePath p l := by
  induction l with
  | nil => cases hq
  | cons r rest ih =>
    simp only [removePath]
    by_cases hr : r = p
    · rw [if_pos hr]
      rcases List.mem_cons.mp hq with h1 | h1
      · exact absurd (h1.trans hr) hne
      · exact h1
    · rw [if_neg hr]
      rcases List.mem_cons.mp hq with h1 | h1
      · exact h1 ▸ List.mem_cons_self r _
      · exact List.mem_cons_of_mem r (ih h1)

/-- Membership in `removePath` implies membership in the original list. -/
theorem mem_of_mem_removePath {p q : String} {l : List String} (h : q ∈ removePath p l) :
    q ∈ l :=
  (removePath_sublist p l).mem h

/-- Removing a present path shortens the list by one. -/
theorem length_removePath {p : String} {l : List String} (h : p ∈ l) :
    (removePath p l).length + 1 = l.length := by
  induction l with
  | nil => cases h
  | cons q rest ih =>
    simp only [removePath, List.length_cons]
    by_cases hq : q = p
    · rw [if_pos hq]
    · rw [if_neg hq, List.length_cons]
      have : p ∈ rest := by
        rcases List.mem_cons.mp h with h1 | h1
        · exact absurd h1.symm hq
        · exact h1
      rw [ih this]

/-- Erasing the index just past a list removes the appended element. -/
theorem eraseIdx_append_length {α : Type} (l : List α) (a : α) :
    (l ++ [a]).eraseIdx l.length = l := by
  induction l with
  | nil => rfl
  | cons b rest ih =>
    simp only [List.cons_append, List.length_cons, List.eraseIdx, List.append_eq, ih]

/-- Splicing `stagedImages` at the staged-path index keeps the origin list in
lockstep: when the origins equal the staged-path set, the spliced origins
equal the set with the path deleted. -/
theorem map_origin_eraseIdx (p : String) (si : List StagedImage) :
    ((si.eraseIdx (pathIndexOf p (si.map (fun i => i.origin)))).map (fun i => i.origin))
      = removePath p (si.map (fun i => i.origin)) := by
  induction si with
  | nil => rfl
  | cons a rest ih =>
    simp only [List.map_cons, pathIndexOf, removePath]
    by_cases ha : a.origin = p
    · rw [if_pos ha, if_pos ha]
      rfl
    · rw [if_neg ha, if_neg ha]
      simp only [List.eraseIdx, List.map_cons, ih]

/-! ## Scan characterization lemmas (shared by C5 and C8) -/

/-- Names produced over a listed entry set: exactly the entries passing the
name filter whose joined path stats successfully, in directory order. -/
theorem dirScanRecords_names_eq (dir : String) (entries : List String)
    (stat : String → Option Stats) :
    (dirScanRecords dir entries stat).map (fun r => r.name)
      = entries.filter (fun n => dirNameFilter n && (stat (joinPath dir n)).isSome) := by
  induction entries with
  | nil => rfl
  | cons n rest ih =>
    simp only [dirScanRecords] at ih ⊢
    by_cases hf : dirNameFilter n
    · cases hstat : stat (joinPath dir n) with
      | some st =>
        simp [List.filter_cons, hf, hstat, List.filterMap_cons, ih]
      | none =>
        simp [List.filter_cons, hf, hstat, List.filterMap_cons, ih]
    · simp [List.filter_cons, hf, ih]

/-- Names produced by a plain-directory scan whose directory exists and lists
successfully: the scan returns a list (no exception), holding exactly the
entries passing the name filter whose joined path stats successfully. -/
theorem dirScan_names_eq (dir : String) (entries : List String) (stat : String → Option Stats) :
    (getScreenshotsFromDirectory dir true (some entries) stat).map
        (fun l => l.map (fun r => r.name))
      = some (entries.filter (fun n => dirNameFilter n && (stat (joinPath dir n)).isSome)) := by
  show some ((dirScanRecords dir entries stat).map (fun r => r.name)) = _
  rw [dirScanRecords_names_eq]

/-- Names produced by a glob scan: exactly the basenames of matched paths with
an image extension whose stat succeeds, in glob order. -/
theorem globScan_names_eq (resolvePath basenameOf : String → String)
    (files : List String) (stat : String → Option Stats) :
    (getScreenshotsFromGlob resolvePath basenameOf (some files) stat).map (fun r => r.name)
      = (files.filter (fun p => imageExtCI p && (stat p).isSome)).map basenameOf := by
  induction files with
  | nil => rfl
  | cons p rest ih =>
    simp only [getScreenshotsFromGlob] at ih ⊢
    by_cases hf : imageExtCI p
    · cases hstat : stat p with
      | some st =>
        simp [List.filter_cons, hf, hstat, List.filterMap_cons, ih]
      | none =>
        simp [List.filter_cons, hf, hstat, List.filterMap_cons, ih]
    · simp [List.filter_cons, hf, ih]

/-! ## C5 — directory scan returns exactly the pattern-matching PNG entries -/

/-- C5 counterexample: the claim as stated fails when a matching entry has
unreadable stats. With the sole entry `Screenshot 1.png` (PNG, matching) and
a throwing `statSync`, the scan returns the empty list, yet the claimed
result is exactly that entry. -/
theorem c5_counterexample :
    (getScreenshotsFromDirectory "/d" true (some ["Screenshot 1.png"]) (fun _ => none)).map
        (fun l => l.map (fun r => r.name))
      ≠ some (["Screenshot 1.png"].filter dirNameFilter) := by
  decide

/-- C5 (amended): scanning a plain directory that exists and lists
successfully returns exactly those entries whose name ends in `.png`
case-insensitively and matches at least one of the fixed screenshot naming
patterns, and whose file stats are readable at scan time; every non-PNG,
non-matching or stat-failing entry is excluded. -/
theorem c5_dirScan_exact (dir : String) (entries : List String) (stat : String → Option Stats) :
    (getScreenshotsFromDirectory dir true (some entries) stat).map
        (fun l => l.map (fun r => r.name))
      = some (entries.filter (fun n =>
          (pngCI n && isScreenshotName n) && (stat (joinPath dir n)).isSome)) :=
  dirScan_names_eq dir entries stat

/-! ## C7 — unreadable file at stage time: silent skip, staging unchanged -/

/-- C7: for every record whose file is unreadable at stage time, attempting to
stage it (toggle on an unstaged path) silently leaves the staged-path set and
the staged-image sequence unchanged; no error is raised (the function is
total). -/
theorem c7_unreadable_stage_noop (fs : String → Option String) (p : String)
    (aS : List String) (si : List StagedImage)
    (hread : fs p = none) (hmem : p ∉ aS) :
    toggleStageScreenshot fs p aS si = (aS, si) := by
  simp [toggleStageScreenshot, hmem, loadImageBase64, hread]

/-- Witness for C7 at a concrete unreadable path and non-empty store. -/
theorem c7_unreadable_stage_noop_witness :
    toggleStageScreenshot (fun _ => none) "/x/c.png" ["/d/a.png"] [imgW]
      = (["/d/a.png"], [imgW]) :=
  c7_unreadable_stage_noop (fun _ => none) "/x/c.png" ["/d/a.png"] [imgW] rfl (by decide)

/-! ## C8 — discovery and raised errors -/

/-- C8 counterexample: discovery can raise an error to the caller. A plain
source naming an existing but unlistable path — a regular file (ENOTDIR) or a
permission-denied directory (EACCES) — passes the `existsSync` guard, and the
unguarded `readdirSync` throws; the exception escapes `getScreenshotsFromDirectory`
(result `none`), so the scan yields no list at all, not the empty sequence
the claim requires. -/
theorem c8_counterexample :
    getScreenshotsFromDirectory "/f" true none (fun _ => some { mtime := 0, size := 0 })
        = none ∧
    getScreenshotsFromDirectory "/f" true none (fun _ => some { mtime := 0, size := 0 })
        ≠ some [] := by
  decide

/-- C8 (amended): discovery never surfaces an error except when an existing
source directory cannot be listed. A missing directory returns the empty
sequence (the `existsSync` guard short-circuits before `readdirSync`); when
the directory exists but listing throws, the exception escapes to the caller;
a failing glob expansion returns the empty sequence; and in both scan modes
an entry whose stats are unreadable is skipped while the rest of the scan
proceeds. -/
theorem c8_discovery_behavior :
    (∀ dir entries stat, getScreenshotsFromDirectory dir false entries stat = some []) ∧
    (∀ dir stat, getScreenshotsFromDirectory dir true none stat = none) ∧
    (∀ resolvePath basenameOf stat,
        getScreenshotsFromGlob resolvePath basenameOf none stat = []) ∧
    (∀ dir entries stat,
        (getScreenshotsFromDirectory dir true (some entries) stat).map
            (fun l => l.map (fun r => r.name))
          = some (entries.filter (fun n => dirNameFilter n && (stat (joinPath dir n)).isSome))) ∧
    (∀ resolvePath basenameOf files stat,
        (getScreenshotsFromGlob resolvePath basenameOf (some files) stat).map (fun r => r.name)
          = (files.filter (fun p => imageExtCI p && (stat p).isSome)).map basenameOf) :=
  ⟨fun _ _ _ => rfl, fun _ _ => rfl, fun _ _ _ => rfl,
   fun dir entries stat => dirScan_names_eq dir entries stat,
   fun resolvePath basenameOf files stat => globScan_names_eq resolvePath basenameOf files stat⟩

/-! ## C3 — the input hook drains the staging store -/

/-- C3: with a non-empty staged sequence, intercepting the next outgoing
message transforms it, appending exactly the staged images in stage order
after the images already attached, and leaves the store at count 0; with an
empty staged sequence the message passes through unchanged. -/
theorem c3_input_hook_drains (staged : List StagedImage) (ev : InputEvent) :
    (staged ≠ [] →
        onInputHook staged ev
          = (.transform ev.text ((ev.images.getD []) ++ staged), [])) ∧
    (staged = [] → onInputHook staged ev = (.continueUnchanged, staged)) := by
  constructor
  · intro h
    have : staged.length ≠ 0 := fun hl => h (List.length_eq_zero.mp hl)
    simp [onInputHook, this]
  · intro h
    subst h
    simp [onInputHook]

/-- Witness for C3 at a concrete staged store and message. -/
theorem c3_input_hook_drains_witness :
    onInputHook [imgW] { text := "hi", images := some [imgW] }
      = (.transform "hi" ([imgW] ++ [imgW]), []) :=
  (c3_input_hook_drains [imgW] { text := "hi", images := some [imgW] }).1 (by decide)

/-! ## C9 — escape closes the picker without touching the staging store -/

/-- C9: in the Browsing state (no pending nuke confirmation), the escape key
terminates the picker with the cancel payload and leaves the entire state —
in particular the staged-image sequence and staged-path set — unchanged. -/
theorem c9_escape_preserves_staging (fs : String → Option String)
    (unlinkOk : String → Bool) (st : UIState) (hnw : st.nukeWarning = false) :
    handleInput fs unlinkOk .escape st = (st, some none) := by
  unfold handleInput
  rw [hnw]
  simp

/-- Witness for C9 at a concrete state with a staged image. -/
theorem c9_escape_preserves_staging_witness :
    handleInput fsW (fun _ => true) .escape
        { tabs := [tabW], activeTab := 0, cursor := 0, scrollOffset := 0,
          nukeWarning := false, alreadyStaged := ["/d/a.png"], stagedImages := [imgW] }
      = ({ tabs := [tabW], activeTab := 0, cursor := 0, scrollOffset := 0,
           nukeWarning := false, alreadyStaged := ["/d/a.png"], stagedImages := [imgW] },
         some none) :=
  c9_escape_preserves_staging fsW (fun _ => true) _ rfl

/-! ## C10 — the SSH-sync remote directory becomes one additional last source -/

/-- C10: when the SSH-sync configuration specifies a non-empty remote
directory that is present in the source list neither raw nor tilde-expanded,
the source list is the configured/env/default chain with that directory
appended as one additional last entry, and the tab list built from it has one
more tab, the last of which is built from the remote directory. -/
theorem c10_sshsync_appends_source (cfgSources : Option (List String))
    (envDir : Option String) (defaultDir home rd : String)
    (scan : String → List ScreenshotInfo) (mkLabel : String → String)
    (hrd : rd ≠ "")
    (hexp : expandPath home rd ∉ resolveSources cfgSources envDir defaultDir none home)
    (hraw : rd ∉ resolveSources cfgSources envDir defaultDir none home) :
    resolveSources cfgSources envDir defaultDir (some rd) home
        = resolveSources cfgSources envDir defaultDir none home ++ [rd] ∧
    (getSourceTabs scan mkLabel (resolveSources cfgSources envDir defaultDir (some rd) home)).length
        = (getSourceTabs scan mkLabel (resolveSources cfgSources envDir defaultDir none home)).length
            + 1 := by
  have hbase :
      resolveSources cfgSources envDir defaultDir (some rd) home
        = resolveSources cfgSources envDir defaultDir none home ++ [rd] := by
    simp only [resolveSources] at hexp hraw ⊢
    rw [if_neg hrd, if_neg (fun h => h.elim hexp hraw)]
  refine ⟨hbase, ?_⟩
  rw [hbase]
  simp [getSourceTabs]

/-- Witness for C10 at a concrete configuration. -/
theorem c10_sshsync_appends_source_witness :
    resolveSources (some ["/d"]) none "/dflt" (some "~/Screenshots") "/home/u"
        = resolveSources (some ["/d"]) none "/dflt" none "/home/u" ++ ["~/Screenshots"] ∧
    (getSourceTabs (fun _ => []) (fun s => s)
        (resolveSources (some ["/d"]) none "/dflt" (some "~/Screenshots") "/home/u")).length
        = (getSourceTabs (fun _ => []) (fun s => s)
            (resolveSources (some ["/d"]) none "/dflt" none "/home/u")).length + 1 :=
  c10_sshsync_appends_source (some ["/d"]) none "/dflt" "/home/u" "~/Screenshots"
    (fun _ => []) (fun s => s) (by decide) (by decide) (by decide)

/-! ## C1 — toggling stage twice round-trips -/

/-- `pathIndexOf` of a freshly appended absent path is the original length. -/
theorem pathIndexOf_append_self {p : String} {l : List String} (h : p ∉ l) :
    pathIndexOf p (l ++ [p]) = l.length := by
  induction l with
  | nil => simp [pathIndexOf]
  | cons q rest ih =>
    simp only [List.mem_cons, not_or] at h
    simp only [List.cons_append, pathIndexOf, List.length_cons]
    rw [if_neg (fun hq => h.1 hq.symm)]
    simp only [List.append_eq] at ih ⊢
    rw [ih h.2]

/-- C1 counterexample: the claim as stated fails when the toggled path is
currently staged and its file is unreadable. Toggling `/d/a.png` twice from a
store holding exactly that staged image, over a file system on which nothing
is readable, ends with count 0 instead of the prior count 1 and with the path
no longer staged. -/
theorem c1_counterexample :
    ((toggleStageScreenshot (fun _ => none) "/d/a.png"
        (toggleStageScreenshot (fun _ => none) "/d/a.png" ["/d/a.png"] [imgW]).1
        (toggleStageScreenshot (fun _ => none) "/d/a.png" ["/d/a.png"] [imgW]).2).2).length
        ≠ ([imgW] : List StagedImage).length ∧
    (toggleStageScreenshot (fun _ => none) "/d/a.png"
        (toggleStageScreenshot (fun _ => none) "/d/a.png" ["/d/a.png"] [imgW]).1
        (toggleStageScreenshot (fun _ => none) "/d/a.png" ["/d/a.png"] [imgW]).2).1
        ≠ ["/d/a.png"] := by
  decide

/-- C1 (amended): over a well-formed staging state (the staged-path set is
duplicate-free and in lockstep with the origins of the staged-image
sequence, as in every reachable state), toggling stage on a path twice in
succession returns the staging store to its prior count and its prior
staged-path set, provided the file is readable whenever the path is currently
staged (when it is not staged and unreadable, both toggles are no-ops). -/
theorem c1_toggle_twice_roundtrip (fs : String → Option String) (p : String)
    (aS : List String) (si : List StagedImage)
    (hnd : aS.Nodup)
    (hls : si.map (fun i => i.origin) = aS)
    (hread : p ∈ aS → (fs p).isSome) :
    ((toggleStageScreenshot fs p
        (toggleStageScreenshot fs p aS si).1 (toggleStageScreenshot fs p aS si).2).2).length
        = si.length ∧
    ∀ q, (q ∈ (toggleStageScreenshot fs p
        (toggleStageScreenshot fs p aS si).1 (toggleStageScreenshot fs p aS si).2).1
          ↔ q ∈ aS) := by
  have hlen : si.length = aS.length := by rw [← hls, List.length_map]
  by_cases hp : p ∈ aS
  · obtain ⟨d, hd⟩ := Option.isSome_iff_exists.mp (hread hp)
    have ht1 : toggleStageScreenshot fs p aS si
        = (removePath p aS, si.eraseIdx (pathIndexOf p aS)) := by
      simp [toggleStageScreenshot, hp]
    have hp2 : p ∉ removePath p aS := not_mem_removePath hnd
    have ht2 : toggleStageScreenshot fs p (removePath p aS) (si.eraseIdx (pathIndexOf p aS))
        = (removePath p aS ++ [p],
           si.eraseIdx (pathIndexOf p aS)
             ++ [{ origin := p, mimeType := mimeFromPath p, data := d }]) := by
      simp [toggleStageScreenshot, hp2, loadImageBase64, hd]
    rw [ht1]
    simp only [ht2]
    constructor
    · have hidx : pathIndexOf p aS < si.length := hlen ▸ pathIndexOf_lt_length hp
      rw [List.length_append, List.length_eraseIdx, if_pos hidx]
      simp only [List.length_cons, List.length_nil]
      omega
    · intro q
      simp only [List.mem_append, List.mem_singleton]
      constructor
      · rintro (hq | hq)
        · exact mem_of_mem_removePath hq
        · exact hq ▸ hp
      · intro hq
        by_cases hqp : q = p
        · exact Or.inr hqp
        · exact Or.inl (mem_removePath_of_ne hq hqp)
  · cases hfs : fs p with
    | none =>
      have ht1 : toggleStageScreenshot fs p aS si = (aS, si) := by
        simp [toggleStageScreenshot, hp, loadImageBase64, hfs]
      rw [ht1]
      simp only [ht1]
      simp
    | some d =>
      have ht1 : toggleStageScreenshot fs p aS si
          = (aS ++ [p], si ++ [{ origin := p, mimeType := mimeFromPath p, data := d }]) := by
        simp [toggleStageScreenshot, hp, loadImageBase64, hfs]
      have hp2 : p ∈ aS ++ [p] := List.mem_append.mpr (Or.inr (List.mem_singleton.mpr rfl))
      have ht2 : toggleStageScreenshot fs p (aS ++ [p])
          (si ++ [{ origin := p, mimeType := mimeFromPath p, data := d }])
          = (aS, si) := by
        simp only [toggleStageScreenshot, if_pos hp2]
        rw [removePath_append_self hp, pathIndexOf_append_self hp, ← hlen,
          eraseIdx_append_length]
      rw [ht1, ht2]
      exact ⟨rfl, fun q => Iff.rfl⟩

/-- Witness for C1 at a concrete readable staged path. -/
theorem c1_toggle_twice_roundtrip_witness :
    ((toggleStageScreenshot fsW "/d/a.png"
        (toggleStageScreenshot fsW "/d/a.png" ["/d/a.png"] [imgW]).1
        (toggleStageScreenshot fsW "/d/a.png" ["/d/a.png"] [imgW]).2).2).length
        = ([imgW] : List StagedImage).length ∧
    ("/d/a.png" ∈ (toggleStageScreenshot fsW "/d/a.png"
        (toggleStageScreenshot fsW "/d/a.png" ["/d/a.png"] [imgW]).1
        (toggleStageScreenshot fsW "/d/a.png" ["/d/a.png"] [imgW]).2).1
      ↔ "/d/a.png" ∈ ["/d/a.png"]) :=
  ⟨(c1_toggle_twice_roundtrip fsW "/d/a.png" ["/d/a.png"] [imgW]
      (by decide) (by decide) (fun _ => by decide)).1,
   (c1_toggle_twice_roundtrip fsW "/d/a.png" ["/d/a.png"] [imgW]
      (by decide) (by decide) (fun _ => by decide)).2 "/d/a.png"⟩

/-! ## C2 — no source path staged twice (lockstep invariant) -/

/-- The staging well-formedness invariant of one picker session started from
an empty store: the origins of the staged-image sequence are exactly the
staged-path set, in order, and the set is duplicate-free. -/
def stagingLockstep (aS : List String) (si : List StagedImage) : Prop :=
  si.map (fun i => i.origin) = aS ∧ aS.Nodup

/-- `unstageIfStaged` preserves the lockstep invariant. -/
theorem lockstep_unstageIfStaged (p : String) {aS : List String} {si : List StagedImage}
    (h : stagingLockstep aS si) :
    stagingLockstep (unstageIfStaged p aS si).1 (unstageIfStaged p aS si).2 := by
  obtain ⟨hmap, hnd⟩ := h
  unfold unstageIfStaged
  by_cases hp : p ∈ aS
  · rw [if_pos hp]
    refine ⟨?_, nodup_removePath hnd⟩
    rw [← hmap]
    exact map_origin_eraseIdx p si
  · rw [if_neg hp]
    exact ⟨hmap, hnd⟩

/-- `toggleStageScreenshot` preserves the lockstep invariant. -/
theorem lockstep_toggleStage (fs : String → Option String) (p : String)
    {aS : List String} {si : List StagedImage} (h : stagingLockstep aS si) :
    stagingLockstep (toggleStageScreenshot fs p aS si).1
      (toggleStageScreenshot fs p aS si).2 := by
  obtain ⟨hmap, hnd⟩ := h
  unfold toggleStageScreenshot
  by_cases hp : p ∈ aS
  · rw [if_pos hp]
    refine ⟨?_, nodup_removePath hnd⟩
    rw [← hmap]
    exact map_origin_eraseIdx p si
  · rw [if_neg hp]
    cases hfs : loadImageBase64 fs p with
    | none => exact ⟨hmap, hnd⟩
    | some img =>
      have horig : img.origin = p := by
        unfold loadImageBase64 at hfs
        cases hread : fs p with
        | none => rw [hread] at hfs; cases hfs
        | some d =>
          rw [hread] at hfs
          cases hfs
          rfl
      constructor
      · rw [List.map_append, hmap, List.map_cons, List.map_nil, horig]
      · rw [List.nodup_append]
        exact ⟨hnd, List.nodup_singleton p,
          by simpa [List.disjoint_singleton, horig] using hp⟩

/-- The per-file nuke step preserves the lockstep invariant. -/
theorem lockstep_nukeFold (unlinkOk : String → Bool) (scr : List ScreenshotInfo)
    (acc : List String × List StagedImage) (h : stagingLockstep acc.1 acc.2) :
    stagingLockstep
      (scr.foldl (fun acc sc =>
        if unlinkOk sc.path then unstageIfStaged sc.path acc.1 acc.2 else acc) acc).1
      (scr.foldl (fun acc sc =>
        if unlinkOk sc.path then unstageIfStaged sc.path acc.1 acc.2 else acc) acc).2 := by
  induction scr generalizing acc with
  | nil => exact h
  | cons sc rest ih =>
    simp only [List.foldl_cons]
    by_cases hu : unlinkOk sc.path
    · rw [if_pos hu]
      exact ih _ (lockstep_unstageIfStaged sc.path h)
    · rw [if_neg hu]
      exact ih _ h

/-- `nukeCurrentTab` preserves the lockstep invariant. -/
theorem lockstep_nukeCurrentTab (unlinkOk : String → Bool) (st : UIState)
    (h : stagingLockstep st.alreadyStaged st.stagedImages) :
    stagingLockstep (nukeCurrentTab unlinkOk st).1.alreadyStaged
      (nukeCurrentTab unlinkOk st).1.stagedImages := by
  unfold nukeCurrentTab
  have hfold := lockstep_nukeFold unlinkOk (getCurrentScreenshots st)
    (st.alreadyStaged, st.stagedImages) h
  cases hfind : findNonEmptyTabIdx
      (setTabScreenshots st.tabs st.activeTab []) st.activeTab with
  | some k => simpa [hfind] using hfold
  | none => simpa [hfind] using hfold

/-- `deleteCurrent` preserves the lockstep invariant. -/
theorem lockstep_deleteCurrent (unlinkOk : String → Bool) (st : UIState)
    (h : stagingLockstep st.alreadyStaged st.stagedImages) :
    stagingLockstep (deleteCurrent unlinkOk st).1.alreadyStaged
      (deleteCurrent unlinkOk st).1.stagedImages := by
  unfold deleteCurrent
  dsimp only
  repeat' split
  all_goals first
    | exact h
    | exact lockstep_unstageIfStaged _ h

/-- `handleInput` preserves the lockstep invariant for every key. -/
theorem lockstep_handleInput (fs : String → Option String) (unlinkOk : String → Bool)
    (key : PickerKey) (st : UIState)
    (h : stagingLockstep st.alreadyStaged st.stagedImages) :
    stagingLockstep (handleInput fs unlinkOk key st).1.alreadyStaged
      (handleInput fs unlinkOk key st).1.stagedImages := by
  unfold handleInput
  by_cases hnw : st.nukeWarning
  · rw [if_pos hnw]
    cases key with
    | nuke => exact lockstep_nukeCurrentTab unlinkOk st h
    | up => exact h
    | down => exact h
    | stage => exact h
    | enter => exact h
    | escape => exact h
    | openViewer => exact h
    | deleteKey => exact h
    | ctrlT => exact h
    | other => exact h
  · rw [if_neg hnw]
    cases key with
    | ctrlT =>
      by_cases ht : 1 < st.tabs.length
      · rw [if_pos ht]; exact h
      · rw [if_neg ht]; exact h
    | nuke => exact h
    | up => exact h
    | down => exact h
    | stage =>
      dsimp only
      cases hget : getAtInt (getCurrentScreenshots st) st.cursor with
      | some sc => exact lockstep_toggleStage fs sc.path h
      | none => exact h
    | enter => exact h
    | escape => exact h
    | openViewer => exact h
    | deleteKey => exact lockstep_deleteCurrent unlinkOk st h
    | other => exact h

/-- One session step preserves the lockstep invariant. -/
theorem lockstep_stepSession (acc : UIState × Option DoneResult) (s : SessionStep)
    (h : stagingLockstep acc.1.alreadyStaged acc.1.stagedImages) :
    stagingLockstep (stepSession acc s).1.alreadyStaged (stepSession acc s).1.stagedImages := by
  unfold stepSession
  cases hdone : acc.2 with
  | some r => exact h
  | none => exact lockstep_handleInput s.fs s.unlinkOk s.key acc.1 h

/-- Folding session steps preserves the lockstep invariant. -/
theorem lockstep_foldSteps (steps : List SessionStep) (acc : UIState × Option DoneResult)
    (h : stagingLockstep acc.1.alreadyStaged acc.1.stagedImages) :
    stagingLockstep (steps.foldl stepSession acc).1.alreadyStaged
      (steps.foldl stepSession acc).1.stagedImages := by
  induction steps generalizing acc with
  | nil => exact h
  | cons s rest ih =>
    simp only [List.foldl_cons]
    exact ih _ (lockstep_stepSession acc s h)

/-- C2 counterexample: the claim as stated fails across picker sessions. Two
sessions over the same one-record tab, each staging `/d/a.png` once, leave the
store holding two entries originating from the same source path (the session
staged-path set restarts empty while `stagedImages` persists). -/
theorem c2_counterexample :
    ¬ ((runOps [.openPicker [tabW] [stepStageW], .openPicker [tabW] [stepStageW]]).map
        (fun i => i.origin)).Nodup := by
  decide

/-- C2 (amended): within any single picker session that begins with an empty
staging store, at every reachable state — after any sequence of key events
covering stage, unstage, delete, nuke, tab cycling and navigation — the
staged-image sequence never contains two entries originating from the same
source path. Across sessions without an intervening drain or clear the
sequence can contain duplicates (see the counterexample). -/
theorem c2_no_duplicate_staging (tabs : List Tab) (steps : List SessionStep) :
    (((runPickerSession tabs [] steps).1).stagedImages.map (fun i => i.origin)).Nodup := by
  have hinit : stagingLockstep
      (initUI (tabs.filter (fun t => !t.screenshots.isEmpty)) []).alreadyStaged
      (initUI (tabs.filter (fun t => !t.screenshots.isEmpty)) []).stagedImages :=
    ⟨rfl, List.nodup_nil⟩
  have hfin := lockstep_foldSteps steps
    (initUI (tabs.filter (fun t => !t.screenshots.isEmpty)) [], none) hinit
  unfold runPickerSession
  obtain ⟨hmap, hnd⟩ := hfin
  rw [hmap]
  exact hnd

/-! ## C4 — deleting the last record of the active tab -/

/-- Characterization of a failed tab search: every tab at an index other than
`skip` is empty. Index `i` is the running offset of the recursion. -/
theorem findNonEmptyTabAux_eq_none_iff (tabs : List Tab) (skip : Nat) :
    ∀ i, (findNonEmptyTabAux tabs skip i = none ↔
      ∀ j t, tabs.get? j = some t → i + j ≠ skip → t.screenshots = []) := by
  induction tabs with
  | nil =>
    intro i
    simp [findNonEmptyTabAux]
  | cons t rest ih =>
    intro i
    simp only [findNonEmptyTabAux]
    by_cases hc : i ≠ skip ∧ t.screenshots ≠ []
    · rw [if_pos hc]
      constructor
      · intro hcon; cases hcon
      · intro hall
        exact absurd (hall 0 t rfl (by omega)) hc.2
    · rw [if_neg hc]
      rw [ih (i + 1)]
      constructor
      · intro hall j u hget hne
        cases j with
        | zero =>
          cases hget
          rcases not_and_or.mp hc with h1 | h1
          · exact absurd (by omega : i ≠ skip) (not_not.mpr (not_not.mp h1))
          · exact not_not.mp h1
        | succ j =>
          exact hall j u hget (by omega)
      · intro hall j u hget hne
        exact hall (j + 1) u hget (by omega)

/-- A successful tab search returns an index other than `skip` holding a
non-empty tab (indices are offset by the running `i`). -/
theorem findNonEmptyTabAux_eq_some (tabs : List Tab) (skip : Nat) :
    ∀ i k, findNonEmptyTabAux tabs skip i = some k →
      k ≠ skip ∧ ∃ j t, j + i = k ∧ tabs.get? j = some t ∧ t.screenshots ≠ [] := by
  induction tabs with
  | nil => intro i k h; cases h
  | cons t rest ih =>
    intro i k h
    simp only [findNonEmptyTabAux] at h
    by_cases hc : i ≠ skip ∧ t.screenshots ≠ []
    · rw [if_pos hc] at h
      cases h
      exact ⟨hc.1, 0, t, by omega, rfl, hc.2⟩
    · rw [if_neg hc] at h
      obtain ⟨hk, j, u, hji, hget, hne⟩ := ih (i + 1) k h
      exact ⟨hk, j + 1, u, by omega, hget, hne⟩

/-- A successful `findNonEmptyTabIdx` returns an index other than `skip`
holding a non-empty tab. -/
theorem findNonEmptyTabIdx_eq_some {tabs : List Tab} {skip k : Nat}
    (h : findNonEmptyTabIdx tabs skip = some k) :
    k ≠ skip ∧ ∃ t, tabs.get? k = some t ∧ t.screenshots ≠ [] := by
  obtain ⟨hk, j, t, hji, hget, hne⟩ := findNonEmptyTabAux_eq_some tabs skip 0 k h
  have : j = k := by omega
  exact ⟨hk, t, this ▸ hget, hne⟩

/-- Replacing the screenshots of one tab leaves the other positions of the
tab list unchanged. -/
theorem setTabScreenshots_get_ne (tabs : List Tab) (k : Nat) (scr : List ScreenshotInfo)
    (j : Nat) (h : j ≠ k) :
    (setTabScreenshots tabs k scr).get? j = tabs.get? j := by
  unfold setTabScreenshots
  cases hk : tabs.get? k with
  | none => rfl
  | some t => exact List.get?_set_ne _ _ (fun hkj => h hkj.symm)

/-- Evaluation of the delete branch when the active tab holds exactly the
record under the cursor: the record is unlinked, unstaged if staged, the tab
empties, and the picker either switches to the first other non-empty tab
(cursor and scroll reset) or terminates with `done(null)`. -/
theorem deleteCurrent_last_record (unlinkOk : String → Bool) (st : UIState)
    (sc : ScreenshotInfo)
    (hscr : getCurrentScreenshots st = [sc])
    (hcur : st.cursor = 0)
    (hunl : unlinkOk sc.path = true) :
    deleteCurrent unlinkOk st =
      match findNonEmptyTabIdx (setTabScreenshots st.tabs st.activeTab []) st.activeTab with
      | some k =>
        ({ st with tabs := setTabScreenshots st.tabs st.activeTab [], activeTab := k,
                   cursor := 0, scrollOffset := 0,
                   alreadyStaged := (unstageIfStaged sc.path st.alreadyStaged st.stagedImages).1,
                   stagedImages := (unstageIfStaged sc.path st.alreadyStaged st.stagedImages).2 },
         none)
      | none =>
        ({ st with tabs := setTabScreenshots st.tabs st.activeTab [],
                   alreadyStaged := (unstageIfStaged sc.path st.alreadyStaged st.stagedImages).1,
                   stagedImages := (unstageIfStaged sc.path st.alreadyStaged st.stagedImages).2 },
         some none) := by
  unfold deleteCurrent
  rw [hscr, hcur]
  simp [getAtInt, hunl, List.findIdx_cons]

/-- C4: in the Browsing state, with the active tab holding exactly the record
under the cursor and that record deletable, pressing delete either (a) closes
the picker with the no-screenshots payload when every other tab is empty, or
(b) keeps the picker open and switches the active tab to a non-empty one with
cursor and scroll reset when some other tab is non-empty. -/
theorem c4_delete_last_record (fs : String → Option String) (unlinkOk : String → Bool)
    (st : UIState) (t : Tab) (sc : ScreenshotInfo)
    (hnw : st.nukeWarning = false)
    (htab : st.tabs.get? st.activeTab = some t)
    (hone : t.screenshots = [sc])
    (hcur : st.cursor = 0)
    (hunl : unlinkOk sc.path = true) :
    ((∀ i u, i ≠ st.activeTab → st.tabs.get? i = some u → u.screenshots = []) →
        (handleInput fs unlinkOk .deleteKey st).2 = some none) ∧
    ((∃ i u, i ≠ st.activeTab ∧ st.tabs.get? i = some u ∧ u.screenshots ≠ []) →
        (handleInput fs unlinkOk .deleteKey st).2 = none ∧
        ∃ k u, (handleInput fs unlinkOk .deleteKey st).1.activeTab = k ∧
          k ≠ st.activeTab ∧
          (handleInput fs unlinkOk .deleteKey st).1.tabs.get? k = some u ∧
          u.screenshots ≠ [] ∧
          (handleInput fs unlinkOk .deleteKey st).1.cursor = 0 ∧
          (handleInput fs unlinkOk .deleteKey st).1.scrollOffset = 0) := by
  have hscr : getCurrentScreenshots st = [sc] := by
    unfold getCurrentScreenshots
    rw [htab]
    exact hone
  have hdel : handleInput fs unlinkOk .deleteKey st = deleteCurrent unlinkOk st := by
    unfold handleInput
    rw [hnw]
    rfl
  have hmain := deleteCurrent_last_record unlinkOk st sc hscr hcur hunl
  constructor
  · intro hall
    have hfind : findNonEmptyTabIdx (setTabScreenshots st.tabs st.activeTab []) st.activeTab
        = none := by
      unfold findNonEmptyTabIdx
      rw [findNonEmptyTabAux_eq_none_iff]
      intro j u hget hne
      rw [setTabScreenshots_get_ne _ _ _ _ (by omega)] at hget
      exact hall j u (by omega) hget
    rw [hdel, hmain, hfind]
  · rintro ⟨j, u, hj, hget, hne⟩
    have hget' : (setTabScreenshots st.tabs st.activeTab []).get? j = some u := by
      rw [setTabScreenshots_get_ne _ _ _ _ hj]
      exact hget
    have hnn : findNonEmptyTabIdx (setTabScreenshots st.tabs st.activeTab []) st.activeTab
        ≠ none := by
      unfold findNonEmptyTabIdx
      intro hnone
      rw [findNonEmptyTabAux_eq_none_iff] at hnone
      exact hne (hnone j u hget' (by omega))
    cases hfind : findNonEmptyTabIdx (setTabScreenshots st.tabs st.activeTab [])
        st.activeTab with
    | none => exact absurd hfind hnn
    | some k =>
      obtain ⟨hkskip, v, hvget, hvne⟩ := findNonEmptyTabIdx_eq_some hfind
      rw [hdel, hmain, hfind]
      exact ⟨rfl, k, v, rfl, hkskip, hvget, hvne, rfl, rfl⟩

/-- Witness for C4 at a concrete two-tab state: deleting the only record of
the first tab switches the picker to the second, still non-empty, tab. -/
theorem c4_delete_last_record_witness :
    (handleInput fsW (fun _ => true) .deleteKey (initUI [tabW, tabV] [])).2 = none :=
  ((c4_delete_last_record fsW (fun _ => true) (initUI [tabW, tabV] []) tabW scW
      rfl rfl rfl rfl rfl).2 ⟨1, tabV, by decide, rfl, by decide⟩).1

/-! ## C6 — tab record lists are sorted by modification time descending -/

/-- C6: every tab built by `getSourceTabs` has its record list sorted by
modification time descending: any two consecutive records satisfy
`records[i].mtime >= records[i+1].mtime`. -/
theorem c6_tab_sorted_desc (scan : String → List ScreenshotInfo) (mkLabel : String → String)
    (sources : List String) (tab : Tab) (htab : tab ∈ getSourceTabs scan mkLabel sources)
    (i : Nat) (a b : ScreenshotInfo)
    (ha : tab.screenshots.get? i = some a) (hb : tab.screenshots.get? (i + 1) = some b) :
    b.mtime ≤ a.mtime := by
  obtain ⟨s, hs, heq⟩ := List.mem_map.mp htab
  have hscr : tab.screenshots = sortScreenshots (scan s) := by rw [← heq]
  rw [hscr] at ha hb
  have hsorted : List.Sorted (fun x y : ScreenshotInfo => y.mtime ≤ x.mtime)
      (sortScreenshots (scan s)) := by
    unfold sortScreenshots
    haveI : IsTotal ScreenshotInfo (fun x y => y.mtime ≤ x.mtime) :=
      ⟨fun x y => Int.le_total y.mtime x.mtime⟩
    haveI : IsTrans ScreenshotInfo (fun x y => y.mtime ≤ x.mtime) :=
      ⟨fun x y z h1 h2 => le_trans h2 h1⟩
    exact List.sorted_insertionSort _ _
  obtain ⟨hia, hga⟩ := List.get?_eq_some.mp ha
  obtain ⟨hib, hgb⟩ := List.get?_eq_some.mp hb
  have hrel := List.pairwise_iff_get.mp hsorted ⟨i, hia⟩ ⟨i + 1, hib⟩
    (by simp [Fin.lt_def])
  rw [hga, hgb] at hrel
  exact hrel

/-- Witness for C6 at a concrete two-record source: the tab is sorted most
recent first. -/
theorem c6_tab_sorted_desc_witness : scW.mtime ≤ scV.mtime :=
  c6_tab_sorted_desc (fun _ => [scW, scV]) (fun s => s) ["/d"]
    { label := "/d", pattern := "/d", screenshots := [scV, scW] }
    (by decide) 0 scV scW (by decide) (by decide)

end ScreenshotsPicker
